import Mathlib

/-!
Verification of the resource-coordination core of the repository:
the `TokenLock` manager (`src/services/token_lock.py`) and the database
adapter layer (`src/core/db_adapter.py`).

The Python code is shallowly embedded: each stateful manager becomes a
Lean structure with explicit state-passing functions, Python dicts become
association lists with unique keys (insertion-ordered, as Python dicts
are), `time.time()` timestamps become rationals, and fallible operations
return `Except`.
-/

/-! ## Association-list primitives modelling Python `dict` operations -/

/-- Models `k in d` / `d[k]` lookup for a dict modelled as an association list. -/
def lookupKey {β : Type} (k : Int) : List (Int × β) → Option β
  | [] => none
  | p :: rest => if p.1 = k then some p.2 else lookupKey k rest

/-- Models `del d[k]` / `d.pop(k, None)`: removes the entry for `k`.  Dict keys are
unique, so filtering out every pair with key `k` removes exactly that entry. -/
def eraseKey {β : Type} (k : Int) (l : List (Int × β)) : List (Int × β) :=
  l.filter (fun p => decide (p.1 ≠ k))

/-- Models `d[k] = v`: overwrite in place when the key is present, otherwise append
(Python dicts preserve insertion order). -/
def insertKey {β : Type} (k : Int) (v : β) (l : List (Int × β)) : List (Int × β) :=
  if l.any (fun p => decide (p.1 = k)) then
    l.map (fun p => if p.1 = k then (k, v) else p)
  else l ++ [(k, v)]

/-- The keys of the dict, in order (`list(d.keys())`). -/
def keysOf {β : Type} (l : List (Int × β)) : List Int := l.map Prod.fst

/-- Well-formedness of the dict model: keys are pairwise distinct. -/
def NodupKeys {β : Type} (l : List (Int × β)) : Prop := (keysOf l).Nodup

namespace TokenLock

/-- State of a `TokenLock` instance (src/services/token_lock.py, lines 12-23):
`lock_timeout` (seconds, an int), `_locks` (token_id → acquisition timestamp,
the local fallback table) and `_lock_values` (token_id → Redis ownership
token).  Timestamps from `time.time()` are modelled as rationals. -/
structure LockState where
  lockTimeout : Int
  locks : List (Int × ℚ)
  lockValues : List (Int × String)
  deriving DecidableEq

/-- Models `TokenLock.__init__` with its default `lock_timeout=300`. -/
def mkState (lockTimeout : Int := 300) : LockState :=
  ⟨lockTimeout, [], []⟩

/-- Local branch of `TokenLock.acquire_lock` (lines 59-77): under the state
guard, an existing entry older than `lock_timeout` is deleted (treated as
released) and then `now` is recorded; a live entry makes the call return
`False`; an absent entry is recorded as `now` with result `True`. -/
def acquire_lock (now : ℚ) (tid : Int) (s : LockState) : Bool × LockState :=
  match lookupKey tid s.locks with
  | some lockTime =>
    if now - lockTime > (s.lockTimeout : ℚ) then
      let s1 : LockState := { s with locks := eraseKey tid s.locks }
      (true, { s1 with locks := insertKey tid now s1.locks })
    else
      (false, s)
  | none => (true, { s with locks := insertKey tid now s.locks })

/-- Distributed branch of `TokenLock.acquire_lock` (lines 49-58): the Redis
manager returns either an ownership value (recorded into `_lock_values`,
result `True`) or nothing (result `False`, no state change).  The Redis
round-trip outcome is the `lockValue` parameter. -/
def acquire_lock_distributed (lockValue : Option String) (tid : Int)
    (s : LockState) : Bool × LockState :=
  match lockValue with
  | some v => (true, { s with lockValues := insertKey tid v s.lockValues })
  | none => (false, s)

/-- Models `TokenLock.release_lock` (lines 79-99).  `connected` abbreviates
"`redis_mgr` is non-None and `redis_mgr.is_connected`".  The distributed
branch pops the ownership value; the local branch deletes the local entry
when present (both branches are silent no-ops otherwise). -/
def release_lock (connected : Bool) (tid : Int) (s : LockState) : LockState :=
  if connected && (lookupKey tid s.lockValues).isSome then
    { s with lockValues := eraseKey tid s.lockValues }
  else
    { s with locks := eraseKey tid s.locks }

/-- Local branch of `TokenLock.is_locked` (lines 115-127): an expired entry
is deleted as a side effect and reported unlocked. -/
def is_locked (now : ℚ) (tid : Int) (s : LockState) : Bool × LockState :=
  match lookupKey tid s.locks with
  | none => (false, s)
  | some lockTime =>
    if now - lockTime > (s.lockTimeout : ℚ) then
      (false, { s with locks := eraseKey tid s.locks })
    else
      (true, s)

/-- Models `TokenLock.cleanup_expired_locks` (lines 129-144): collect every
token_id whose entry is older than the timeout, then delete each. -/
def cleanup_expired_locks (now : ℚ) (s : LockState) : LockState :=
  let expired : List Int :=
    keysOf (s.locks.filter (fun p => decide (now - p.2 > (s.lockTimeout : ℚ))))
  { s with locks := expired.foldl (fun l tid => eraseKey tid l) s.locks }

/-- Models `TokenLock.get_locked_tokens` (lines 146-148): `list(self._locks.keys())`,
with no expiry predicate applied. -/
def get_locked_tokens (s : LockState) : List Int :=
  keysOf s.locks

/-- Models `TokenLock.set_lock_timeout` (lines 150-153). -/
def set_lock_timeout (t : Int) (s : LockState) : LockState :=
  { s with lockTimeout := t }

/-- One observable step of the manager, for stating invariants over
arbitrary call sequences. -/
inductive LockOp
  | acquire (now : ℚ) (tid : Int)
  | acquireDist (lockValue : Option String) (tid : Int)
  | release (connected : Bool) (tid : Int)
  | check (now : ℚ) (tid : Int)
  | cleanup (now : ℚ)
  | setTimeout (t : Int)

/-- State transition of a single step (result values discarded). -/
def applyOp : LockOp → LockState → LockState
  | .acquire now tid, s => (acquire_lock now tid s).2
  | .acquireDist lv tid, s => (acquire_lock_distributed lv tid s).2
  | .release c tid, s => release_lock c tid s
  | .check now tid, s => (is_locked now tid s).2
  | .cleanup now, s => cleanup_expired_locks now s
  | .setTimeout t, s => set_lock_timeout t s

/-- A whole call sequence, started from a given state. -/
def runOps (ops : List LockOp) (s : LockState) : LockState :=
  ops.foldl (fun st op => applyOp op st) s

end TokenLock

/-! ## Dictionary-model lemmas -/

theorem mem_keysOf_of_lookup {β : Type} {k : Int} {l : List (Int × β)} {v : β}
    (h : lookupKey k l = some v) : k ∈ keysOf l := by
  induction l with
  | nil => simp [lookupKey] at h
  | cons p rest ih =>
    by_cases hp : p.1 = k
    · simp [keysOf, hp]
    · simp only [lookupKey, if_neg hp] at h
      simpa [keysOf] using Or.inr (ih h)

theorem lookupKey_eq_none_iff {β : Type} (k : Int) (l : List (Int × β)) :
    lookupKey k l = none ↔ k ∉ keysOf l := by
  induction l with
  | nil => simp [lookupKey, keysOf]
  | cons p rest ih =>
    by_cases hp : p.1 = k
    · simp [lookupKey, hp, keysOf]
    · simp [lookupKey, hp, keysOf, ih, Ne.symm hp]

theorem keysOf_eraseKey {β : Type} (k : Int) (l : List (Int × β)) :
    keysOf (eraseKey k l) = (keysOf l).filter (fun a => decide (a ≠ k)) := by
  induction l with
  | nil => rfl
  | cons p rest ih =>
    by_cases hp : p.1 = k <;>
      simp [eraseKey, keysOf, List.filter, hp, ih] at * <;> simpa [eraseKey, keysOf] using ih

theorem NodupKeys_eraseKey {β : Type} (k : Int) {l : List (Int × β)}
    (h : NodupKeys l) : NodupKeys (eraseKey k l) := by
  unfold NodupKeys at *
  rw [keysOf_eraseKey]
  exact h.filter _

theorem lookupKey_eraseKey_self {β : Type} (k : Int) (l : List (Int × β)) :
    lookupKey k (eraseKey k l) = none := by
  rw [lookupKey_eq_none_iff, keysOf_eraseKey]
  simp

theorem eraseKey_of_lookup_none {β : Type} {k : Int} {l : List (Int × β)}
    (h : lookupKey k l = none) : eraseKey k l = l := by
  rw [lookupKey_eq_none_iff] at h
  unfold eraseKey
  rw [List.filter_eq_self]
  intro p hp
  simp only [ne_eq, decide_eq_true_eq]
  intro hk
  exact h (by rw [← hk]; exact List.mem_map.mpr ⟨p, hp, rfl⟩)

theorem eraseKey_idem {β : Type} (k : Int) (l : List (Int × β)) :
    eraseKey k (eraseKey k l) = eraseKey k l :=
  eraseKey_of_lookup_none (lookupKey_eraseKey_self k l)

theorem keysOf_map_overwrite {β : Type} (k : Int) (v : β) (l : List (Int × β)) :
    keysOf (l.map (fun p => if p.1 = k then (k, v) else p)) = keysOf l := by
  induction l with
  | nil => rfl
  | cons p rest ih =>
    unfold keysOf at *
    simp only [List.map_cons]
    congr 1
    by_cases hp : p.1 = k <;> simp [hp]

theorem keysOf_insertKey_mem {β : Type} (k : Int) (v : β) {l : List (Int × β)}
    (h : l.any (fun p => decide (p.1 = k)) = true) :
    keysOf (insertKey k v l) = keysOf l := by
  unfold insertKey
  rw [if_pos h]
  exact keysOf_map_overwrite k v l

theorem keysOf_insertKey_new {β : Type} (k : Int) (v : β) {l : List (Int × β)}
    (h : ¬ l.any (fun p => decide (p.1 = k)) = true) :
    keysOf (insertKey k v l) = keysOf l ++ [k] := by
  unfold insertKey
  rw [if_neg h]
  unfold keysOf
  rw [List.map_append]
  rfl

theorem NodupKeys_insertKey {β : Type} (k : Int) (v : β) {l : List (Int × β)}
    (h : NodupKeys l) : NodupKeys (insertKey k v l) := by
  unfold NodupKeys at *
  by_cases hc : l.any (fun p => decide (p.1 = k)) = true
  · rw [keysOf_insertKey_mem k v hc]; exact h
  · rw [keysOf_insertKey_new k v hc]
    refine List.Nodup.append h (List.nodup_singleton k) ?_
    intro a ha hb
    simp only [List.mem_singleton] at hb
    rcases List.mem_map.mp ha with ⟨p, hp, hfst⟩
    apply hc
    rw [List.any_eq_true]
    exact ⟨p, hp, by simp [hfst, hb]⟩

theorem lookupKey_insertKey_self {β : Type} (k : Int) (v : β) (l : List (Int × β)) :
    lookupKey k (insertKey k v l) = some v := by
  unfold insertKey
  by_cases hc : l.any (fun p => decide (p.1 = k)) = true
  · rw [if_pos hc]
    induction l with
    | nil => simp at hc
    | cons p rest ih =>
      by_cases hp : p.1 = k
      · simp [lookupKey, hp]
      · simp only [List.any_cons] at hc
        simp only [List.map_cons]
        rw [show (if p.1 = k then (k, v) else p) = p from if_neg hp]
        simp only [lookupKey, if_neg hp]
        exact ih (by simpa [hp] using hc)
  · rw [if_neg hc]
    induction l with
    | nil => simp [lookupKey]
    | cons p rest ih =>
      simp only [List.any_cons] at hc
      have hp : ¬ p.1 = k := by
        intro hk; exact hc (by simp [hk])
      simp only [List.cons_append, lookupKey, if_neg hp]
      exact ih (by intro hx; exact hc (by simp [hx]))

theorem NodupKeys_foldl_eraseKey {β : Type} (ks : List Int) {l : List (Int × β)}
    (h : NodupKeys l) :
    NodupKeys (ks.foldl (fun acc k => eraseKey k acc) l) := by
  induction ks generalizing l with
  | nil => exact h
  | cons k rest ih => exact ih (NodupKeys_eraseKey k h)

/-! ## Lock-manager invariant lemmas -/

open TokenLock

theorem acquire_lock_locks_nodup (now : ℚ) (tid : Int) {s : LockState}
    (h : NodupKeys s.locks) : NodupKeys ((acquire_lock now tid s).2).locks := by
  unfold acquire_lock
  rcases hl : lookupKey tid s.locks with _ | t
  · simpa [hl] using NodupKeys_insertKey tid now h
  · simp only [hl]
    by_cases he : now - t > (s.lockTimeout : ℚ)
    · simpa [he] using NodupKeys_insertKey tid now (NodupKeys_eraseKey tid h)
    · simpa [he] using h

theorem applyOp_locks_nodup (op : LockOp) (s : LockState)
    (h : NodupKeys s.locks) : NodupKeys (applyOp op s).locks := by
  cases op with
  | acquire now tid => exact acquire_lock_locks_nodup now tid h
  | acquireDist lv tid =>
    cases lv <;> simpa [applyOp, acquire_lock_distributed] using h
  | release c tid =>
    simp only [applyOp, release_lock]
    split
    · exact h
    · exact NodupKeys_eraseKey tid h
  | check now tid =>
    simp only [applyOp, is_locked]
    rcases hl : lookupKey tid s.locks with _ | t
    · simpa using h
    · by_cases he : now - t > (s.lockTimeout : ℚ)
      · simpa [he] using NodupKeys_eraseKey tid h
      · simpa [he] using h
  | cleanup now =>
    simp only [applyOp, cleanup_expired_locks]
    exact NodupKeys_foldl_eraseKey _ h
  | setTimeout t => exact h

theorem runOps_locks_nodup (ops : List LockOp) :
    ∀ s : LockState, NodupKeys s.locks → NodupKeys (runOps ops s).locks := by
  induction ops with
  | nil => intro s h; exact h
  | cons op rest ih => intro s h; exact ih _ (applyOp_locks_nodup op s h)

theorem acquire_lock_live_false {s : LockState} {now T : ℚ} {tid : Int}
    (hl : lookupKey tid s.locks = some T) (hle : now - T ≤ (s.lockTimeout : ℚ)) :
    (acquire_lock now tid s).1 = false := by
  unfold acquire_lock
  rw [hl]
  simp [not_lt.mpr hle]

theorem acquire_lock_expired_true {s : LockState} {now T : ℚ} {tid : Int}
    (hl : lookupKey tid s.locks = some T) (hgt : now - T > (s.lockTimeout : ℚ)) :
    (acquire_lock now tid s).1 = true := by
  unfold acquire_lock
  rw [hl]
  simp [hgt]

/-! ## Claims about the token lock manager -/

/-- Claim C1: mutual exclusion per token in local mode.  Every step of the
manager keeps the lock table a map with at most one entry per `token_id`
(so from the initial empty state, any call sequence leaves each `token_id`
with at most one live entry), and `acquire_lock` returns `False` whenever
a live (unexpired) entry for the token exists. -/
theorem claim_C1_mutual_exclusion :
    (∀ (op : LockOp) (s : LockState),
      NodupKeys s.locks → NodupKeys (applyOp op s).locks) ∧
    (∀ (ops : List LockOp) (t0 tid : Int),
      (keysOf (runOps ops (mkState t0)).locks).count tid ≤ 1) ∧
    (∀ (s : LockState) (now : ℚ) (tid : Int) (T : ℚ),
      lookupKey tid s.locks = some T → now - T ≤ (s.lockTimeout : ℚ) →
      (acquire_lock now tid s).1 = false) := by
  refine ⟨applyOp_locks_nodup, ?_, fun s now tid T hl hle => acquire_lock_live_false hl hle⟩
  intro ops t0 tid
  have hnd : NodupKeys (runOps ops (mkState t0)).locks :=
    runOps_locks_nodup ops (mkState t0) (by simp [mkState, NodupKeys, keysOf])
  exact List.nodup_iff_count_le_one.mp hnd tid

/-- Witness for C1 at concrete inputs: one acquire step preserves the
invariant, a double-acquire sequence leaves one entry for token 42, and an
acquire against a live entry returns `False`. -/
theorem claim_C1_mutual_exclusion_witness :
    NodupKeys (applyOp (LockOp.acquire 0 42) (mkState 300)).locks ∧
    (keysOf (runOps [LockOp.acquire 0 42, LockOp.acquire 1 42] (mkState 300)).locks).count 42 ≤ 1 ∧
    (acquire_lock 0 42 ⟨1, [(42, 0)], []⟩).1 = false :=
  ⟨claim_C1_mutual_exclusion.1 (LockOp.acquire 0 42) (mkState 300)
      (by simp [mkState, NodupKeys, keysOf]),
   claim_C1_mutual_exclusion.2.1 [LockOp.acquire 0 42, LockOp.acquire 1 42] 300 42,
   claim_C1_mutual_exclusion.2.2 ⟨1, [(42, 0)], []⟩ 0 42 0 (by simp [lookupKey]) (by simp)⟩

/-- Claim C2: expiry boundary of local-mode acquire.  With an entry recorded
at time `T` and never released, `acquire_lock` returns `False` exactly while
`now - T ≤ lock_timeout` and `True` (after discarding the expired entry)
once `now - T > lock_timeout`; concretely, after `set_lock_timeout(1)`,
`acquire_lock(42)` at time 0 returns `True`, an immediate second
`acquire_lock(42)` returns `False`, and at time 2 (more than 1 second
later) `acquire_lock(42)` returns `True` again. -/
theorem claim_C2_expiry_boundary :
    (∀ (s : LockState) (now T : ℚ) (tid : Int),
      lookupKey tid s.locks = some T → now - T ≤ (s.lockTimeout : ℚ) →
      (acquire_lock now tid s).1 = false) ∧
    (∀ (s : LockState) (now T : ℚ) (tid : Int),
      lookupKey tid s.locks = some T → now - T > (s.lockTimeout : ℚ) →
      (acquire_lock now tid s).1 = true) ∧
    ((acquire_lock 0 42 (set_lock_timeout 1 (mkState 300))).1 = true ∧
     (acquire_lock 0 42 (acquire_lock 0 42 (set_lock_timeout 1 (mkState 300))).2).1 = false ∧
     (acquire_lock 2 42 (acquire_lock 0 42 (set_lock_timeout 1 (mkState 300))).2).1 = true) := by
  refine ⟨fun s now T tid hl hle => acquire_lock_live_false hl hle,
          fun s now T tid hl hgt => acquire_lock_expired_true hl hgt, ?_, ?_, ?_⟩
  · norm_num [acquire_lock, set_lock_timeout, mkState, lookupKey]
  · norm_num [acquire_lock, set_lock_timeout, mkState, lookupKey, insertKey]
  · norm_num [acquire_lock, set_lock_timeout, mkState, lookupKey, insertKey, eraseKey]

/-- Witness for C2 at concrete inputs: a live entry (age 0, timeout 1)
refuses acquisition; an expired entry (age 2, timeout 1) allows it. -/
theorem claim_C2_expiry_boundary_witness :
    (acquire_lock 0 42 ⟨1, [(42, 0)], []⟩).1 = false ∧
    (acquire_lock 2 42 ⟨1, [(42, 0)], []⟩).1 = true :=
  ⟨claim_C2_expiry_boundary.1 ⟨1, [(42, 0)], []⟩ 0 0 42 (by simp [lookupKey]) (by simp),
   claim_C2_expiry_boundary.2.1 ⟨1, [(42, 0)], []⟩ 2 0 42 (by simp [lookupKey]) (by norm_num)⟩

/-- Claim C3: idempotent, safe release.  `release_lock` is a total function
(it cannot raise); releasing a token that was never locked (absent from both
the local table and the ownership map) is a no-op; a local-mode double
release equals a single release; after two releases in any mode sequence the
local table no longer holds the token; and release preserves well-formedness
of both maps. -/
theorem claim_C3_release_idempotent :
    (∀ (c : Bool) (tid : Int) (s : LockState),
      lookupKey tid s.locks = none → lookupKey tid s.lockValues = none →
      release_lock c tid s = s) ∧
    (∀ (tid : Int) (s : LockState),
      release_lock false tid (release_lock false tid s) = release_lock false tid s) ∧
    (∀ (c c' : Bool) (tid : Int) (s : LockState),
      lookupKey tid (release_lock c' tid (release_lock c tid s)).locks = none) ∧
    (∀ (c : Bool) (tid : Int) (s : LockState),
      (NodupKeys s.locks → NodupKeys (release_lock c tid s).locks) ∧
      (NodupKeys s.lockValues → NodupKeys (release_lock c tid s).lockValues)) := by
  refine ⟨?_, ?_, ?_, ?_⟩
  · intro c tid s hlk hlv
    unfold release_lock
    split
    · rw [eraseKey_of_lookup_none hlv]
    · rw [eraseKey_of_lookup_none hlk]
  · intro tid s
    simp only [release_lock, Bool.false_and, Bool.false_eq_true, if_false, eraseKey_idem]
  · intro c c' tid s
    unfold release_lock
    split
    · split
      · -- second guard is absurd: the first release already erased the
        -- ownership entry, so its lookup is `none`
        rename_i h2
        simp only [Bool.and_eq_true] at h2
        have h2' := h2.2
        simp [lookupKey_eraseKey_self] at h2'
      · exact lookupKey_eraseKey_self tid _
    · split
      · exact lookupKey_eraseKey_self tid _
      · exact lookupKey_eraseKey_self tid _
  · intro c tid s
    constructor
    · intro h
      unfold release_lock
      split
      · exact h
      · exact NodupKeys_eraseKey tid h
    · intro h
      unfold release_lock
      split
      · exact NodupKeys_eraseKey tid h
      · exact h

/-- Witness for C3 at concrete inputs: releasing never-locked token 7 is a
no-op, double local release equals single release, token 42 is gone after a
double release, and well-formedness is preserved. -/
theorem claim_C3_release_idempotent_witness :
    release_lock false 7 (mkState 300) = mkState 300 ∧
    release_lock false 42 (release_lock false 42 ⟨300, [(42, 0)], []⟩) =
      release_lock false 42 ⟨300, [(42, 0)], []⟩ ∧
    lookupKey 42 (release_lock true 42 (release_lock false 42 ⟨300, [(42, 0)], [(42, "v")]⟩)).locks = none ∧
    NodupKeys (release_lock false 42 (⟨300, [(42, 0)], []⟩ : LockState)).locks :=
  ⟨claim_C3_release_idempotent.1 false 7 (mkState 300) (by simp [mkState, lookupKey])
      (by simp [mkState, lookupKey]),
   claim_C3_release_idempotent.2.1 42 ⟨300, [(42, 0)], []⟩,
   claim_C3_release_idempotent.2.2.1 false true 42 ⟨300, [(42, 0)], [(42, "v")]⟩,
   (claim_C3_release_idempotent.2.2.2 false 42 ⟨300, [(42, 0)], []⟩).1
     (by simp [NodupKeys, keysOf])⟩

/-- Claim C9: the diagnostics snapshot is unfiltered.  Every `token_id`
recorded in the local table appears in `get_locked_tokens`, whether or not
its entry has expired; concretely, with timeout 1 and an entry of age 2,
`get_locked_tokens` still reports token 42 although `is_locked` reports it
unlocked and `acquire_lock` succeeds (these two apply the expiry predicate,
the snapshot does not). -/
theorem claim_C9_snapshot_unfiltered :
    (∀ (s : LockState) (tid : Int) (T : ℚ),
      lookupKey tid s.locks = some T → tid ∈ get_locked_tokens s) ∧
    (get_locked_tokens ⟨1, [(42, 0)], []⟩ = [42] ∧
     (is_locked 2 42 ⟨1, [(42, 0)], []⟩).1 = false ∧
     (acquire_lock 2 42 ⟨1, [(42, 0)], []⟩).1 = true) := by
  refine ⟨fun s tid T h => mem_keysOf_of_lookup h, ?_, ?_, ?_⟩
  · rfl
  · norm_num [is_locked, lookupKey]
  · norm_num [acquire_lock, lookupKey, insertKey, eraseKey]

/-- Witness for C9 at a concrete input: the expired entry for token 42 is
still reported by the snapshot. -/
theorem claim_C9_snapshot_unfiltered_witness :
    (42 : Int) ∈ get_locked_tokens ⟨1, [(42, 0)], []⟩ :=
  claim_C9_snapshot_unfiltered.1 ⟨1, [(42, 0)], []⟩ 42 0 (by simp [lookupKey])

/-- Claim C10: frame effect of `release_lock`.  The distributed branch
(backend connected and an ownership value on record) erases only the
ownership map and leaves the local table unchanged; every other case erases
only the local table and leaves the ownership map unchanged; neither
`cleanup_expired_locks` nor the expiry side effects of `acquire_lock` /
`is_locked` ever touch the ownership map; and a lease acquired in
distributed mode then released while the backend is unreachable keeps its
ownership value recorded. -/
theorem claim_C10_release_frame :
    (∀ (s : LockState) (tid : Int),
      (lookupKey tid s.lockValues).isSome = true →
      (release_lock true tid s).locks = s.locks ∧
      (release_lock true tid s).lockValues = eraseKey tid s.lockValues) ∧
    (∀ (s : LockState) (tid : Int) (c : Bool),
      (c = false ∨ lookupKey tid s.lockValues = none) →
      (release_lock c tid s).lockValues = s.lockValues ∧
      (release_lock c tid s).locks = eraseKey tid s.locks) ∧
    (∀ (s : LockState) (now : ℚ),
      (cleanup_expired_locks now s).lockValues = s.lockValues) ∧
    (∀ (s : LockState) (now : ℚ) (tid : Int),
      ((acquire_lock now tid s).2).lockValues = s.lockValues ∧
      ((is_locked now tid s).2).lockValues = s.lockValues) ∧
    (∀ (s : LockState) (tid : Int) (v : String),
      lookupKey tid
        (release_lock false tid
          (acquire_lock_distributed (some v) tid s).2).lockValues = some v) := by
  refine ⟨?_, ?_, ?_, ?_, ?_⟩
  · intro s tid h
    unfold release_lock
    rw [if_pos (by simp [h])]
    exact ⟨rfl, rfl⟩
  · intro s tid c h
    unfold release_lock
    rw [if_neg ?_]
    · exact ⟨rfl, rfl⟩
    · rcases h with rfl | h
      · simp
      · simp [h]
  · intro s now
    rfl
  · intro s now tid
    constructor
    · unfold acquire_lock
      rcases hl : lookupKey tid s.locks with _ | t
      · rfl
      · by_cases he : now - t > (s.lockTimeout : ℚ) <;> simp [he]
    · unfold is_locked
      rcases hl : lookupKey tid s.locks with _ | t
      · rfl
      · by_cases he : now - t > (s.lockTimeout : ℚ) <;> simp [he]
  · intro s tid v
    unfold release_lock acquire_lock_distributed
    rw [if_neg (by simp)]
    exact lookupKey_insertKey_self tid v s.lockValues

/-- Witness for C10 at concrete inputs: the distributed release keeps the
local table, the local release keeps the ownership map, and the stranded
ownership value of token 42 survives a local-mode release. -/
theorem claim_C10_release_frame_witness :
    (release_lock true 42 (⟨300, [(42, 0)], [(42, "v")]⟩ : LockState)).locks = [(42, 0)] ∧
    (release_lock false 42 (⟨300, [(42, 0)], [(42, "v")]⟩ : LockState)).lockValues = [(42, "v")] ∧
    lookupKey 42
      (release_lock false 42
        (acquire_lock_distributed (some "v") 42 (mkState 300)).2).lockValues = some "v" :=
  ⟨(claim_C10_release_frame.1 ⟨300, [(42, 0)], [(42, "v")]⟩ 42 (by simp [lookupKey])).1,
   (claim_C10_release_frame.2.1 ⟨300, [(42, 0)], [(42, "v")]⟩ 42 false (Or.inl rfl)).1,
   claim_C10_release_frame.2.2.2.2 (mkState 300) 42 "v"⟩

/-! ## Database adapter layer (src/core/db_adapter.py) -/

/-- State of a `SQLiteAdapter` relevant to lifecycle claims: the
`_initialized` flag (lines 86, 107, 112).  The db path and the write lock
carry no lifecycle information. -/
structure SQLiteState where
  inited : Bool
  deriving DecidableEq

/-- Embeds `SQLiteAdapter.initialize` (lines 88-108): an early return when
the flag is already set, otherwise the WAL pragmas run on a probe
connection (an external effect, reported by the returned Bool) and the flag
is recorded. -/
def sqliteInitStep (s : SQLiteState) : SQLiteState × Bool :=
  if s.inited then (s, false) else (⟨true⟩, true)

/-- Embeds `SQLiteAdapter.close` (lines 110-112): only clears the flag. -/
def sqliteCloseStep (_s : SQLiteState) : SQLiteState :=
  ⟨false⟩

/-- Outcome of one attempt of the statement inside
`SQLiteAdapter.execute`: either the engine commits and yields
`cursor.lastrowid`, or `aiosqlite.OperationalError` is raised with a
message. -/
inductive AttemptOutcome where
  | success (rowid : Int)
  | opError (msg : String)
  deriving DecidableEq

/-- Helper for Python's substring test: does `hay` start with `needle`? -/
def matchAt : List Char → List Char → Bool
  | [], _ => true
  | _ :: _, [] => false
  | a :: as, b :: bs => a = b && matchAt as bs

/-- Helper for Python's `needle in hay` substring test. -/
def hasSub (needle : List Char) : List Char → Bool
  | [] => matchAt needle []
  | c :: rest => matchAt needle (c :: rest) || hasSub needle rest

/-- Models Python's `str.lower()` on the ASCII error messages involved:
uppercase ASCII letters map to their lowercase counterparts, every other
character is unchanged. -/
def lowerChar (c : Char) : Char :=
  if 'A' ≤ c ∧ c ≤ 'Z' then Char.ofNat (c.toNat + 32) else c

/-- The busy/locked error class of `SQLiteAdapter.execute` (lines 147-148):
`"database is locked" in error_msg or "unable to open" in error_msg` after
`error_msg = str(e).lower()`. -/
def isBusyError (msg : String) : Bool :=
  hasSub "database is locked".toList (msg.toList.map lowerChar) ||
  hasSub "unable to open".toList (msg.toList.map lowerChar)

/-- The retry delay of `SQLiteAdapter.execute` (line 149):
`(attempt + 1) * 0.2 + attempt * 0.1` seconds. -/
def sqliteWait (attempt : Nat) : ℚ :=
  ((attempt : ℚ) + 1) * 0.2 + (attempt : ℚ) * 0.1

/-- Observable trace of one `SQLiteAdapter.execute` call: its result
(`ok none` is Python's implicit `None` when the loop body never runs,
`error` a propagated exception), how many attempts ran, and the backoff
delays slept between attempts. -/
structure ExecTrace where
  result : Except String (Option Int)
  attempts : Nat
  delays : List ℚ

/-- The retry loop of `SQLiteAdapter.execute` (lines 136-153), with
`fuel = max_retries - attempt` remaining loop iterations.  A success
returns immediately; a busy/locked error with `attempt < max_retries - 1`
(equivalently, more iterations remain) sleeps and retries; any other error,
or a busy error on the final attempt, propagates. -/
def runExec (outcomes : Nat → AttemptOutcome) : Nat → Nat → ExecTrace
  | 0, _ => ⟨.ok none, 0, []⟩
  | fuel + 1, attempt =>
    match outcomes attempt with
    | .success v => ⟨.ok (some v), 1, []⟩
    | .opError msg =>
      if isBusyError msg && (fuel != 0) then
        let t := runExec outcomes fuel (attempt + 1)
        ⟨t.result, t.attempts + 1, sqliteWait attempt :: t.delays⟩
      else ⟨.error msg, 1, []⟩

/-- Embeds `SQLiteAdapter.execute` (lines 133-153) as a function of the
adapter state, the per-attempt engine outcomes, and `max_retries`
(default 5).  The body never consults `_initialized`, so the state
parameter is unused, exactly as in the source. -/
def sqliteExecute (_s : SQLiteState) (outcomes : Nat → AttemptOutcome)
    (maxRetries : Nat := 5) : ExecTrace :=
  runExec outcomes maxRetries 0

/-- State of a `MySQLAdapter`: the `_initialized` flag and the connection
pool handle (lines 217-219). -/
structure MySQLState where
  inited : Bool
  pool : Option Unit
  deriving DecidableEq

/-- Embeds `MySQLAdapter.initialize` (lines 221-243): early return when
the flag is set; otherwise `aiomysql.create_pool` builds the pool (the
nominal, successful round trip) and the flag is recorded.  The Bool reports
whether pool setup ran. -/
def mysqlInitStep (s : MySQLState) : MySQLState × Bool :=
  if s.inited then (s, false) else (⟨true, some ()⟩, true)

/-- Embeds `MySQLAdapter.close` (lines 245-251): closes and drops the pool
and clears the flag. -/
def mysqlCloseStep (_s : MySQLState) : MySQLState :=
  ⟨false, none⟩

/-- Embeds the placeholder rewrite `sql.replace("?", "%s")` (lines 269,
285, 297, 314).  A one-character pattern makes Python's `str.replace`
substitute each occurrence of the character independently. -/
def replaceQmark : List Char → List Char
  | [] => []
  | c :: rest => if c = '?' then '%' :: 's' :: replaceQmark rest else c :: replaceQmark rest

/-- String-level wrapper of the placeholder rewrite. -/
def mysqlRewriteSql (sql : String) : String :=
  String.mk (replaceQmark sql.toList)

/-- Embeds `MySQLAdapter.execute` (lines 263-278): lazily re-runs
`initialize()` when the flag is down, rewrites placeholders, then runs the
statement on a pooled connection.  Returned: the state after the call, the
SQL string actually handed to the cursor, and whether a pool was available
to run it. -/
def mysqlExecute (s : MySQLState) (sql : String) : MySQLState × String × Bool :=
  let s1 := if !s.inited then (mysqlInitStep s).1 else s
  (s1, mysqlRewriteSql sql, s1.pool.isSome)

/-- Embeds `MySQLAdapter.execute_many` (lines 280-290), same prelude. -/
def mysqlExecuteMany (s : MySQLState) (sql : String) : MySQLState × String × Bool :=
  let s1 := if !s.inited then (mysqlInitStep s).1 else s
  (s1, mysqlRewriteSql sql, s1.pool.isSome)

/-- Embeds `MySQLAdapter.fetchone` (lines 292-307), same prelude. -/
def mysqlFetchone (s : MySQLState) (sql : String) : MySQLState × String × Bool :=
  let s1 := if !s.inited then (mysqlInitStep s).1 else s
  (s1, mysqlRewriteSql sql, s1.pool.isSome)

/-- Embeds `MySQLAdapter.fetchall` (lines 309-324), same prelude. -/
def mysqlFetchall (s : MySQLState) (sql : String) : MySQLState × String × Bool :=
  let s1 := if !s.inited then (mysqlInitStep s).1 else s
  (s1, mysqlRewriteSql sql, s1.pool.isSome)

/-- Embeds `SQLiteAdapter.get_placeholder` (lines 200-201). -/
def sqliteGetPlaceholder : String := "?"

/-- Embeds `MySQLAdapter.get_placeholder` (lines 342-343). -/
def mysqlGetPlaceholder : String := "%s"

/-- Lookup in a result row (`row.get('name')`), rows being mappings from
column name to value. -/
def lookupStr (k : String) : List (String × String) → Option String
  | [] => none
  | p :: rest => if p.1 = k then some p.2 else lookupStr k rest

/-- Embeds `SQLiteAdapter.table_exists` (lines 184-190): `fetchone` on the
`sqlite_master` catalog, then `result is not None`.  There is no exception
handler, so a failing fetch propagates.  The fetch outcome is the
parameter. -/
def sqliteTableExists (fetch : Except String (Option (List (String × String)))) :
    Except String Bool :=
  match fetch with
  | .error e => .error e
  | .ok result => .ok result.isSome

/-- Embeds `SQLiteAdapter.column_exists` (lines 192-198): `fetchall` on
`PRAGMA table_info`, wrapped in try/except that reports `False` on any
error; otherwise `any(row.get('name') == column_name for row in rows)`. -/
def sqliteColumnExists (columnName : String)
    (fetch : Except String (List (List (String × String)))) : Except String Bool :=
  match fetch with
  | .error _ => .ok false
  | .ok rows => .ok (rows.any (fun row => decide (lookupStr "name" row = some columnName)))

/-- Embeds `MySQLAdapter.table_exists` (lines 326-332): `fetchone` on
`information_schema.TABLES`, then `result is not None`; no exception
handler, so a failing fetch propagates. -/
def mysqlTableExists (fetch : Except String (Option (List (String × String)))) :
    Except String Bool :=
  match fetch with
  | .error e => .error e
  | .ok result => .ok result.isSome

/-- Embeds `MySQLAdapter.column_exists` (lines 334-340): `fetchone` on
`information_schema.COLUMNS`, then `result is not None`; no exception
handler, so a failing fetch propagates. -/
def mysqlColumnExists (fetch : Except String (Option (List (String × String)))) :
    Except String Bool :=
  match fetch with
  | .error e => .error e
  | .ok result => .ok result.isSome

/-! ## Retry-loop lemmas -/

theorem runExec_attempts_le (o : Nat → AttemptOutcome) :
    ∀ (fuel a : Nat), (runExec o fuel a).attempts ≤ fuel := by
  intro fuel
  induction fuel with
  | zero => intro a; simp [runExec]
  | succ f ih =>
    intro a
    simp only [runExec]
    cases ho : o a with
    | success v => simp
    | opError msg =>
      by_cases hb : (isBusyError msg && (f != 0)) = true
      · simp only [hb, if_true]
        simpa using Nat.succ_le_succ (ih (a + 1))
      · simp [hb]

theorem runExec_succ_busy {o : Nat → AttemptOutcome} {msg : String} {a : Nat}
    (ho : o a = .opError msg) (hb : isBusyError msg = true) {f : Nat} (hf : f ≠ 0) :
    runExec o (f + 1) a =
      ⟨(runExec o f (a + 1)).result, (runExec o f (a + 1)).attempts + 1,
       sqliteWait a :: (runExec o f (a + 1)).delays⟩ := by
  simp only [runExec, ho]
  rw [if_pos (by simp [hb, hf])]

theorem runExec_allBusy {msg : String} (hb : isBusyError msg = true) :
    ∀ (n a : Nat),
      runExec (fun _ => AttemptOutcome.opError msg) (n + 1) a =
        ⟨.error msg, n + 1, (List.range' a n).map sqliteWait⟩ := by
  intro n
  induction n with
  | zero => intro a; simp [runExec, hb]
  | succ m ih =>
    intro a
    rw [runExec_succ_busy rfl hb (Nat.succ_ne_zero m)]
    rw [ih (a + 1)]
    simp [List.range']

theorem runExec_nonbusy {o : Nat → AttemptOutcome} {msg : String} {a : Nat}
    (ho : o a = .opError msg) (hb : isBusyError msg = false) (fuel : Nat) :
    runExec o (fuel + 1) a = ⟨.error msg, 1, []⟩ := by
  simp only [runExec, ho]
  rw [if_neg (by simp [hb])]

theorem runExec_success {o : Nat → AttemptOutcome} {v : Int} {a : Nat}
    (ho : o a = .success v) (fuel : Nat) :
    runExec o (fuel + 1) a = ⟨.ok (some v), 1, []⟩ := by
  simp only [runExec, ho]

/-! ## Claims about the adapter layer -/

/-- Claim C4 counterexample: the claim says `table_exists` returns false on
any introspection error, but `SQLiteAdapter.table_exists` has no exception
handler, so a failing catalog fetch (here a disk I/O error) propagates
instead of yielding `ok false`. -/
theorem claim_C4_counterexample :
    sqliteTableExists (Except.error "disk I/O error") ≠ Except.ok false :=
  fun h => Except.noConfusion h

/-- Claim C4 as amended: only `SQLiteAdapter.column_exists` swallows
introspection errors (its try/except reports `False`); `SQLiteAdapter.table_exists`
and both MySQL introspection methods propagate a failing fetch.  All four
return `False` without raising when the catalog query itself succeeds with
an empty result — the nonexistent-table/column case. -/
theorem claim_C4_introspection_amended :
    (∀ (e col : String), sqliteColumnExists col (Except.error e) = Except.ok false) ∧
    (∀ e : String, sqliteTableExists (Except.error e) = Except.error e) ∧
    (∀ e : String, mysqlTableExists (Except.error e) = Except.error e) ∧
    (∀ e : String, mysqlColumnExists (Except.error e) = Except.error e) ∧
    sqliteTableExists (Except.ok none) = Except.ok false ∧
    (∀ col : String, sqliteColumnExists col (Except.ok []) = Except.ok false) ∧
    mysqlTableExists (Except.ok none) = Except.ok false ∧
    mysqlColumnExists (Except.ok none) = Except.ok false :=
  ⟨fun _ _ => rfl, fun _ => rfl, fun _ => rfl, fun _ => rfl, rfl, fun _ => rfl, rfl, rfl⟩

/-- Witness for the amended C4 at concrete inputs. -/
theorem claim_C4_introspection_amended_witness :
    sqliteColumnExists "name" (Except.error "disk I/O error") = Except.ok false ∧
    sqliteTableExists (Except.error "disk I/O error") = Except.error "disk I/O error" :=
  ⟨claim_C4_introspection_amended.1 "disk I/O error" "name",
   claim_C4_introspection_amended.2.1 "disk I/O error"⟩

/-- Claim C5 counterexample: the claim says every data-access operation
fails after `close()` until `initialize()` is called again, but a MySQL
`execute` after `close()` lazily re-initializes itself and proceeds, and a
SQLite `execute` after `close()` succeeds outright (its body never consults
`_initialized`). -/
theorem claim_C5_counterexample :
    (mysqlExecute (mysqlCloseStep ⟨true, some ()⟩) "SELECT 1").2.2 = true ∧
    (sqliteExecute (sqliteCloseStep ⟨true⟩) (fun _ => .success 1) 5).result =
      Except.ok (some 1) :=
  ⟨rfl, rfl⟩

/-- Claim C5 as amended: `close()` does not make subsequent operations
fail.  `SQLiteAdapter.execute` is entirely independent of the
`_initialized` flag (each call opens a fresh connection), and each MySQL
data-access operation re-runs `initialize()` itself whenever the flag is
down and then proceeds with a live pool. -/
theorem claim_C5_close_amended :
    (∀ (s s' : SQLiteState) (o : Nat → AttemptOutcome) (m : Nat),
      sqliteExecute s o m = sqliteExecute s' o m) ∧
    (∀ (s : MySQLState) (sql : String), s.inited = false →
      (mysqlExecute s sql).1 = ⟨true, some ()⟩ ∧ (mysqlExecute s sql).2.2 = true) ∧
    (∀ (s : MySQLState) (sql : String),
      (mysqlExecute (mysqlCloseStep s) sql).2.2 = true ∧
      (mysqlExecuteMany (mysqlCloseStep s) sql).2.2 = true ∧
      (mysqlFetchone (mysqlCloseStep s) sql).2.2 = true ∧
      (mysqlFetchall (mysqlCloseStep s) sql).2.2 = true) := by
  refine ⟨fun s s' o m => rfl, ?_, fun s sql => ⟨rfl, rfl, rfl, rfl⟩⟩
  intro s sql h
  exact ⟨by simp [mysqlExecute, mysqlInitStep, h], by simp [mysqlExecute, mysqlInitStep, h]⟩

/-- Witness for the amended C5 at a concrete input: a closed MySQL adapter
still runs `execute` (after lazy re-initialization). -/
theorem claim_C5_close_amended_witness :
    (mysqlExecute ⟨false, none⟩ "SELECT 1").2.2 = true :=
  (claim_C5_close_amended.2.1 ⟨false, none⟩ "SELECT 1" rfl).2

/-- Claim C6: embedded-backend write retry.  The retry loop attempts the
statement at most `max_retries` times; when every attempt raises a
busy/locked error, it runs exactly `max_retries` attempts, sleeps the
recorded backoff `(attempt+1)*0.2 + attempt*0.1` seconds for attempts
`0 .. max_retries-2`, and propagates the error; an error outside the
busy/locked class propagates immediately after a single attempt; the
backoff increases linearly, by 0.3 seconds each retry. -/
theorem claim_C6_retry_backoff :
    (∀ (s : SQLiteState) (o : Nat → AttemptOutcome) (m : Nat),
      (sqliteExecute s o m).attempts ≤ m) ∧
    (∀ (msg : String) (n : Nat) (s : SQLiteState), isBusyError msg = true →
      sqliteExecute s (fun _ => .opError msg) (n + 1) =
        ⟨.error msg, n + 1, (List.range n).map sqliteWait⟩) ∧
    (∀ (s : SQLiteState) (o : Nat → AttemptOutcome) (msg : String) (m : Nat),
      o 0 = .opError msg → isBusyError msg = false →
      sqliteExecute s o (m + 1) = ⟨.error msg, 1, []⟩) ∧
    (∀ k : Nat, sqliteWait (k + 1) = sqliteWait k + 3/10) := by
  refine ⟨fun s o m => runExec_attempts_le o m 0, ?_, ?_, ?_⟩
  · intro msg n s hb
    unfold sqliteExecute
    rw [runExec_allBusy hb n 0, List.range_eq_range']
  · intro s o msg m ho hb
    exact runExec_nonbusy ho hb m
  · intro k
    unfold sqliteWait
    push_cast
    ring

/-- Witness for C6 at concrete inputs: with the default `max_retries = 5`,
a persistently locked database yields exactly 5 attempts, 4 backoff sleeps
and the propagated error, while a syntax-class error propagates after one
attempt. -/
theorem claim_C6_retry_backoff_witness :
    sqliteExecute ⟨true⟩ (fun _ => .opError "database is locked") 5 =
      ⟨.error "database is locked", 5, (List.range 4).map sqliteWait⟩ ∧
    sqliteExecute ⟨true⟩ (fun _ => .opError "no such table: t") 5 =
      ⟨.error "no such table: t", 1, []⟩ :=
  ⟨claim_C6_retry_backoff.2.1 "database is locked" 4 ⟨true⟩ (by decide),
   claim_C6_retry_backoff.2.2.1 ⟨true⟩ _ "no such table: t" 4 rfl (by decide)⟩

/-- Claim C7: `initialize()` is idempotent on both backends — once the
initialized flag is set, a further call performs no setup and returns the
state unchanged; in particular a second call right after a first one is a
no-op. -/
theorem claim_C7_init_idempotent :
    (∀ s : SQLiteState, s.inited = true → sqliteInitStep s = (s, false)) ∧
    (∀ s : SQLiteState,
      sqliteInitStep (sqliteInitStep s).1 = ((sqliteInitStep s).1, false)) ∧
    (∀ s : MySQLState, s.inited = true → mysqlInitStep s = (s, false)) ∧
    (∀ s : MySQLState,
      mysqlInitStep (mysqlInitStep s).1 = ((mysqlInitStep s).1, false)) := by
  refine ⟨?_, ?_, ?_, ?_⟩
  · intro s h; simp [sqliteInitStep, h]
  · intro s; by_cases h : s.inited <;> simp [sqliteInitStep, h]
  · intro s h; simp [mysqlInitStep, h]
  · intro s; by_cases h : s.inited <;> simp [mysqlInitStep, h]

/-- Witness for C7 at concrete inputs: both initialized adapters are left
unchanged with no setup performed. -/
theorem claim_C7_init_idempotent_witness :
    sqliteInitStep ⟨true⟩ = (⟨true⟩, false) ∧
    mysqlInitStep ⟨true, some ()⟩ = (⟨true, some ()⟩, false) :=
  ⟨claim_C7_init_idempotent.1 ⟨true⟩ rfl,
   claim_C7_init_idempotent.2.2.1 ⟨true, some ()⟩ rfl⟩

/-! ## Placeholder-rewrite lemmas -/

theorem replaceQmark_eq_flatMap (l : List Char) :
    replaceQmark l = l.flatMap (fun c => if c = '?' then ['%', 's'] else [c]) := by
  induction l with
  | nil => rfl
  | cons c rest ih =>
    by_cases hc : c = '?' <;> simp [replaceQmark, hc, ih]

theorem qmark_not_mem_replaceQmark (l : List Char) : '?' ∉ replaceQmark l := by
  induction l with
  | nil => simp [replaceQmark]
  | cons c rest ih =>
    by_cases hc : c = '?'
    · simp only [replaceQmark, if_pos hc, List.mem_cons]
      push_neg
      exact ⟨by decide, by decide, ih⟩
    · simp only [replaceQmark, if_neg hc, List.mem_cons]
      push_neg
      exact ⟨fun h => hc h.symm, ih⟩

theorem replaceQmark_of_no_qmark {l : List Char} (h : ∀ c ∈ l, c ≠ '?') :
    replaceQmark l = l := by
  induction l with
  | nil => rfl
  | cons c rest ih =>
    simp only [replaceQmark, if_neg (h c (by simp))]
    rw [ih (fun c hc => h c (by simp [hc]))]

/-- Claim C8: placeholder dialect.  The dialect accessors return `?`
(SQLite) and `%s` (MySQL); every MySQL data-access operation hands the
cursor the rewritten SQL; the rewrite expands each `?` into `%s` and leaves
every other character in place, so no embedded-style placeholder survives,
and a string with no `?` is passed through unchanged. -/
theorem claim_C8_placeholder_dialect :
    sqliteGetPlaceholder = "?" ∧
    mysqlGetPlaceholder = "%s" ∧
    (∀ (s : MySQLState) (sql : String),
      (mysqlExecute s sql).2.1 = mysqlRewriteSql sql ∧
      (mysqlExecuteMany s sql).2.1 = mysqlRewriteSql sql ∧
      (mysqlFetchone s sql).2.1 = mysqlRewriteSql sql ∧
      (mysqlFetchall s sql).2.1 = mysqlRewriteSql sql) ∧
    (∀ sql : String, (mysqlRewriteSql sql).toList =
      sql.toList.flatMap (fun c => if c = '?' then ['%', 's'] else [c])) ∧
    (∀ sql : String, '?' ∉ (mysqlRewriteSql sql).toList) ∧
    (∀ sql : String, (∀ c ∈ sql.toList, c ≠ '?') → mysqlRewriteSql sql = sql) := by
  refine ⟨rfl, rfl, fun s sql => ⟨rfl, rfl, rfl, rfl⟩, ?_, ?_, ?_⟩
  · intro sql
    exact replaceQmark_eq_flatMap sql.toList
  · intro sql
    exact qmark_not_mem_replaceQmark sql.toList
  · intro sql h
    show String.mk (replaceQmark sql.toList) = sql
    rw [replaceQmark_of_no_qmark h]
    rfl

/-- Witness for C8 at concrete inputs: a query with placeholders is sent
rewritten, a query without them is passed through, and no `?` survives. -/
theorem claim_C8_placeholder_dialect_witness :
    (mysqlExecute ⟨true, some ()⟩ "UPDATE t SET a=? WHERE b=?").2.1 =
      mysqlRewriteSql "UPDATE t SET a=? WHERE b=?" ∧
    mysqlRewriteSql "SELECT 1" = "SELECT 1" ∧
    '?' ∉ (mysqlRewriteSql "UPDATE t SET a=? WHERE b=?").toList :=
  ⟨(claim_C8_placeholder_dialect.2.2.1 ⟨true, some ()⟩ "UPDATE t SET a=? WHERE b=?").1,
   claim_C8_placeholder_dialect.2.2.2.2.2 "SELECT 1" (by decide),
   claim_C8_placeholder_dialect.2.2.2.2.1 "UPDATE t SET a=? WHERE b=?"⟩
